import Mathlib

/-
Verification of the TCP/TLS forwarding relay in src/main.rs.

The program accepts connections on a plaintext port and a TLS port, dials a
fixed upstream per connection, and copies bytes bidirectionally with
`pipe_stream`.  The embedding below models the tokio/rustls environment
explicitly:

* A reader is modelled by its schedule of `read_buf` outcomes (`ReadEv`):
  each successful `read_buf` appends a chunk of bytes at the end of the
  `BytesMut` buffer; a return of 0 bytes (`eof`) signals end of stream
  (`BytesMut` always has spare capacity because it grows on demand, so a
  0-byte return can only mean end of stream); `rderr` is a read error.
* A writer is modelled by its schedule of `write_buf` outcomes (`WriteEv`):
  tokio's `AsyncWriteExt::write_buf` issues a SINGLE underlying write of the
  buffer's contents and advances the buffer's cursor by the number of bytes
  the writer accepted.  `accept n` means the single write accepted up to `n`
  bytes; `wrerr` is a write error.  (It is `write_all_buf`, not used by the
  source, that would loop until the whole buffer is written.)
* `std::io::Error` values are opaque to the program; they are modelled by
  a numeric code `ErrCode`.
* Asynchronous completion order, where it matters (`try_join!`), is
  modelled by explicit completion times: `tokio::try_join!` returns `Ok`
  of the tuple once all branches have completed successfully, and returns
  the FIRST observed error immediately, dropping (tearing down) the other
  branch; on a tie (same poll round) the first listed branch is polled
  first.
-/

/-- Numeric stand-in for an opaque `std::io::Error` value. -/
abbrev ErrCode := Nat

/-- Result of a fallible operation returning `()` (a `Result<(), std::io::Error>`). -/
inductive Outcome where
  | ok
  | err (e : ErrCode)
deriving DecidableEq

/-- One outcome of `reader.read_buf(&mut buffer)` in `pipe_stream`:
`data bytes` is a successful read appending `bytes` at the end of the
buffer, `eof` is a 0-byte read (clean end of stream), `rderr e` is a read
error. -/
inductive ReadEv where
  | data (bytes : List Nat)
  | eof
  | rderr (e : ErrCode)
deriving DecidableEq

/-- One outcome of `writer.write_buf(&mut buffer)` in `pipe_stream`:
`accept n` means the single underlying write accepted up to `n` bytes of
the buffer (fewer if the buffer holds fewer), `wrerr e` is a write error. -/
inductive WriteEv where
  | accept (n : Nat)
  | wrerr (e : ErrCode)
deriving DecidableEq

/-- Observable outcome of one `pipe_stream` direction: `written` is the byte
sequence delivered to the writer in order; `leftover` is the content of the
`BytesMut` buffer at termination (bytes read but never written — they are
dropped when the function returns); `shutdownCalled` records whether
`writer.shutdown()` was invoked; `res` is the returned `Result`. -/
structure PipeOut where
  written : List Nat
  leftover : List Nat
  shutdownCalled : Bool
  res : Outcome
deriving DecidableEq

/-- The loop of `pipe_stream` (src/main.rs lines 95-113), with the current
`BytesMut` content `buf` made explicit.  Each iteration performs one
`read_buf`; on a 0-byte read it breaks with `writer.shutdown().await`
(result `sres`), discarding `buf`; on data it performs exactly one
`write_buf`, which transfers `min n buf'.length` bytes from the front of
the buffer and leaves the rest for the next iteration.  `none` means the
finite schedule was exhausted with the loop still running. -/
def pipeStreamLoop : List ReadEv → List WriteEv → Outcome → List Nat → Option PipeOut
  | [], _, _, _ => none
  | ReadEv.eof :: _, _, sres, buf => some ⟨[], buf, true, sres⟩
  | ReadEv.rderr e :: _, _, _, buf => some ⟨[], buf, false, Outcome.err e⟩
  | ReadEv.data _ :: _, [], _, _ => none
  | ReadEv.data bs :: _, WriteEv.wrerr e :: _, _, buf =>
      some ⟨[], buf ++ bs, false, Outcome.err e⟩
  | ReadEv.data bs :: rs, WriteEv.accept n :: ws, sres, buf =>
      match pipeStreamLoop rs ws sres ((buf ++ bs).drop (min n (buf ++ bs).length)) with
      | none => none
      | some out =>
          some ⟨(buf ++ bs).take (min n (buf ++ bs).length) ++ out.written,
                out.leftover, out.shutdownCalled, out.res⟩

/-- `pipe_stream` (src/main.rs lines 95-113): the loop started on a fresh
buffer.  `shutdownRes` is the result of `writer.shutdown().await` if it is
reached. -/
def pipe_stream (reads : List ReadEv) (writes : List WriteEv)
    (shutdownRes : Outcome) : Option PipeOut :=
  pipeStreamLoop reads writes shutdownRes []

/-- All payload bytes offered by a read schedule, in order (the bytes the
sending peer emits). -/
def dataBytes : List ReadEv → List Nat
  | [] => []
  | ReadEv.data bs :: rs => bs ++ dataBytes rs
  | _ :: rs => dataBytes rs

/-- The number of bytes staged in the `BytesMut` buffer immediately after
each successful `read_buf` of the `pipe_stream` loop (same iteration
structure as `pipeStreamLoop`).  The buffer starts with capacity 4096, but
`read_buf` on a `BytesMut` grows it on demand (`reserve`), so these lengths
are not intrinsically bounded by 4096. -/
def pipeBufLens : List ReadEv → List WriteEv → List Nat → List Nat
  | ReadEv.data bs :: rs, WriteEv.accept n :: ws, buf =>
      ((buf ++ bs).length) ::
        pipeBufLens rs ws ((buf ++ bs).drop (min n (buf ++ bs).length))
  | ReadEv.data bs :: _, _, buf => [(buf ++ bs).length]
  | _, _, _ => []

/-- Environment of one accepted connection: the outcomes the outside world
hands to this session.  `handshake` is the TLS accept result (relevant only
on the secure path); `dial` is the `TcpStream::connect(REMOTE_ADDRESS)`
result; `reads1/writes1/sdres1` drive the client→upstream `pipe_stream`,
`reads2/writes2/sdres2` the upstream→client one; `t1/t2` are the completion
times of the two directions, used by `try_join!` to order errors. -/
structure ConnEnv where
  handshake : Outcome
  dial : Outcome
  reads1 : List ReadEv
  writes1 : List WriteEv
  sdres1 : Outcome
  reads2 : List ReadEv
  writes2 : List WriteEv
  sdres2 : Outcome
  t1 : Nat
  t2 : Nat
deriving DecidableEq

/-- Observable outcome of one session task: whether the relay (the
`try_join!` of the two `pipe_stream`s) was started at all, and the task's
result (`none` = still relaying when the schedules ran out). -/
structure SessionOut where
  relayStarted : Bool
  res : Option Outcome
deriving DecidableEq

/-- Model of `tokio::try_join!` on two unit branches with completion times
`t1, t2`: succeeds once both branches have succeeded; returns the first
observed error immediately (the other branch may be unfinished — it is
dropped); when both fail, the earlier completion wins, branch 1 on a tie
(it is polled first). -/
def try_join2 (t1 t2 : Nat) (r1 r2 : Option Outcome) : Option Outcome :=
  match r1, r2 with
  | some (Outcome.err e1), some (Outcome.err e2) =>
      some (if t1 ≤ t2 then Outcome.err e1 else Outcome.err e2)
  | some (Outcome.err e1), _ => some (Outcome.err e1)
  | _, some (Outcome.err e2) => some (Outcome.err e2)
  | some Outcome.ok, some Outcome.ok => some Outcome.ok
  | _, _ => none

/-- `process_stream` (src/main.rs lines 81-93): dial the fixed upstream; on
dial failure return that error without starting any copy (the client stream
is dropped/closed); otherwise run the two `pipe_stream` directions under
`try_join!`. -/
def process_stream (env : ConnEnv) : SessionOut :=
  match env.dial with
  | Outcome.err e => ⟨false, some (Outcome.err e)⟩
  | Outcome.ok =>
      ⟨true,
        try_join2 env.t1 env.t2
          ((pipe_stream env.reads1 env.writes1 env.sdres1).map PipeOut.res)
          ((pipe_stream env.reads2 env.writes2 env.sdres2).map PipeOut.res)⟩

/-- `process_https_stream` (src/main.rs lines 76-79): perform the TLS
handshake; on failure return that error (the connection is dropped, no dial,
no relay); on success behave as `process_stream`. -/
def process_https_stream (env : ConnEnv) : SessionOut :=
  match env.handshake with
  | Outcome.err e => ⟨false, some (Outcome.err e)⟩
  | Outcome.ok => process_stream env

/-- One event of an acceptor loop: a successfully accepted connection (with
its environment) or an error returned by `listener.accept()`. -/
inductive AcceptEv where
  | conn (env : ConnEnv)
  | aerr (e : ErrCode)
deriving DecidableEq

/-- Observable outcome of an acceptor loop run over a finite schedule:
the connections spawned (in order) and the error that terminated the loop,
if any (`none` = still accepting). -/
structure ListenOut where
  spawned : List ConnEnv
  err : Option ErrCode
deriving DecidableEq

/-- The accept loop shared by both listeners (src/main.rs lines 42-45 and
60-63): `listener.accept().await?` — ANY accept error is propagated by `?`
and terminates the loop; a successful accept spawns a detached task
(`tokio::spawn`), whose result is never inspected by the loop. -/
def acceptLoop : List AcceptEv → ListenOut
  | [] => ⟨[], none⟩
  | AcceptEv.conn env :: rest =>
      let r := acceptLoop rest
      ⟨env :: r.spawned, r.err⟩
  | AcceptEv.aerr e :: _ => ⟨[], some e⟩

/-- `listen_for_http_request` (src/main.rs lines 40-46): bind, then run the
accept loop.  A bind failure is returned before any accept. -/
def listen_for_http_request (bindRes : Outcome) (evs : List AcceptEv) : ListenOut :=
  match bindRes with
  | Outcome.err e => ⟨[], some e⟩
  | Outcome.ok => acceptLoop evs

/-- A parsed certificate; only the identity of the key it certifies matters
to the model. -/
structure Certificate where
  keyId : Nat
deriving DecidableEq

/-- A parsed private key: whether the TLS library can use it (`wellFormed`)
and the identity of the key pair it belongs to. -/
structure PrivateKey where
  wellFormed : Bool
  keyId : Nat
deriving DecidableEq

/-- Modelled from the spec: `rustls::ServerConfig::set_single_cert` is
external library code, not part of this repository.  Spec section 4.4:
"Construction fails if the chain is empty, the key is malformed, or the key
does not match the leaf certificate."  Error codes are arbitrary distinct
values standing for the library's error. -/
def set_single_cert (chain : List Certificate) (key : PrivateKey) : Outcome :=
  if chain.isEmpty then Outcome.err 101
  else if !key.wellFormed then Outcome.err 102
  else if (chain.head?.map Certificate.keyId) ≠ some key.keyId then Outcome.err 103
  else Outcome.ok

/-- Result of a fallible operation returning a value of type `α`. -/
inductive Loaded (α : Type) where
  | ok (val : α)
  | err (e : ErrCode)
deriving DecidableEq

/-- `load_certs` (src/main.rs lines 66-69): file opening and PEM parsing are
external; `parsed = none` models an open/parse failure, which the source
maps to an `InvalidInput` error (code 201 here); otherwise the parsed list
is returned — possibly empty. -/
def load_certs (parsed : Option (List Certificate)) : Loaded (List Certificate) :=
  match parsed with
  | none => Loaded.err 201
  | some cs => Loaded.ok cs

/-- `load_keys` (src/main.rs lines 71-74): file opening and
`rsa_private_keys` parsing are external; `parsed = none` models an
open/parse failure, mapped to an `InvalidInput` error (code 202 here);
otherwise the parsed list is returned — possibly empty, e.g. for a PEM file
holding only non-RSA keys. -/
def load_keys (parsed : Option (List PrivateKey)) : Loaded (List PrivateKey) :=
  match parsed with
  | none => Loaded.err 202
  | some ks => Loaded.ok ks

/-- `listen_for_https_request` (src/main.rs lines 48-64): load certificates
and keys, build the TLS config with `set_single_cert(certs, keys.remove(0))`,
bind, then run the accept loop (each accepted connection spawns
`process_https_stream`).  `keys.remove(0)` PANICS when the parsed key list
is empty (`Vec::remove` index out of bounds) — modelled by the result
`none`; every non-panicking path yields `some`. -/
def listen_for_https_request (certsParsed : Option (List Certificate))
    (keysParsed : Option (List PrivateKey)) (bindRes : Outcome)
    (evs : List AcceptEv) : Option ListenOut :=
  match load_certs certsParsed with
  | Loaded.err e => some ⟨[], some e⟩
  | Loaded.ok cs =>
    match load_keys keysParsed with
    | Loaded.err e => some ⟨[], some e⟩
    | Loaded.ok ks =>
      match ks with
      | [] => none
      | k :: _ =>
        match set_single_cert cs k with
        | Outcome.err e => some ⟨[], some e⟩
        | Outcome.ok =>
          match bindRes with
          | Outcome.err e => some ⟨[], some e⟩
          | Outcome.ok => some (acceptLoop evs)

/-- The session outcomes of the secure acceptor's spawned tasks, in accept
order (each accepted connection is handled by an independent
`process_https_stream` task). -/
def httpsSessionOutcomes (evs : List AcceptEv) : List SessionOut :=
  (acceptLoop evs).spawned.map process_https_stream

/-- The result an acceptor loop contributes to `try_join!` in `main`:
an error if the loop terminated with one, otherwise still running
(the loops never return `Ok`). -/
def listenResult (lo : ListenOut) : Option Outcome :=
  match lo.err with
  | some e => some (Outcome.err e)
  | none => none

/-- Model of `main` (src/main.rs lines 26-38; the Lean name `main` is reserved): `try_join!` of the two acceptors with
completion times `tH, tS`.  The outer `none` models the process aborting on
a panic inside `listen_for_https_request` (the panic of an empty key list);
otherwise the process result is the `try_join!` of the two loop results. -/
def main_rs (bindH : Outcome) (evsH : List AcceptEv)
    (certsParsed : Option (List Certificate)) (keysParsed : Option (List PrivateKey))
    (bindS : Outcome) (evsS : List AcceptEv) (tH tS : Nat) :
    Option (Option Outcome) :=
  match listen_for_https_request certsParsed keysParsed bindS evsS with
  | none => none
  | some lo =>
      some (try_join2 tH tS
        (listenResult (listen_for_http_request bindH evsH)) (listenResult lo))

/-- Helper: whatever the copy loop delivers to the writer is an initial
segment of the current buffer content followed by the bytes offered by the
reader — no reordering, no duplication, no invented bytes. -/
theorem pipeStreamLoop_written_initial :
    ∀ (reads : List ReadEv) (ws : List WriteEv) (sres : Outcome) (buf : List Nat)
      (out : PipeOut), pipeStreamLoop reads ws sres buf = some out →
      ∃ t, out.written ++ t = buf ++ dataBytes reads := by
  intro reads
  induction reads with
  | nil =>
      intro ws sres buf out h
      simp [pipeStreamLoop] at h
  | cons ev rs ih =>
      intro ws sres buf out h
      cases ev with
      | eof =>
          simp only [pipeStreamLoop, Option.some.injEq] at h
          subst h
          exact ⟨buf ++ dataBytes rs, by simp [dataBytes]⟩
      | rderr e =>
          simp only [pipeStreamLoop, Option.some.injEq] at h
          subst h
          exact ⟨buf ++ dataBytes rs, by simp [dataBytes]⟩
      | data bs =>
          cases ws with
          | nil => simp [pipeStreamLoop] at h
          | cons w ws' =>
              cases w with
              | wrerr e =>
                  simp only [pipeStreamLoop, Option.some.injEq] at h
                  subst h
                  exact ⟨buf ++ bs ++ dataBytes rs, by simp [dataBytes]⟩
              | accept n =>
                  simp only [pipeStreamLoop] at h
                  cases hrec : pipeStreamLoop rs ws' sres
                      ((buf ++ bs).drop (min n (buf ++ bs).length)) with
                  | none => rw [hrec] at h; exact absurd h (by simp)
                  | some r =>
                      rw [hrec] at h
                      simp only [Option.some.injEq] at h
                      subst h
                      obtain ⟨t, ht⟩ := ih ws' sres _ r hrec
                      refine ⟨t, ?_⟩
                      simp only [dataBytes]
                      rw [List.append_assoc, ht, ← List.append_assoc,
                        List.take_append_drop, List.append_assoc]

/-- Helper: when every single write accepts the whole buffered content
(each write event accepts exactly the size of the chunk just read), the
copy loop delivers every byte read, shuts the writer down at end of stream
and returns the shutdown result. -/
theorem pipeStreamLoop_full_writes :
    ∀ (chunks : List (List Nat)) (sres : Outcome),
      pipeStreamLoop (chunks.map ReadEv.data ++ [ReadEv.eof])
        (chunks.map fun c => WriteEv.accept c.length) sres [] =
      some ⟨chunks.flatten, [], true, sres⟩ := by
  intro chunks
  induction chunks with
  | nil => intro sres; simp [pipeStreamLoop]
  | cons c cs ih =>
      intro sres
      simp only [List.map_cons, List.cons_append, pipeStreamLoop, List.nil_append,
        Nat.min_self, List.drop_length, List.take_length, List.append_eq]
      rw [ih sres]
      simp

/-- C1 (amended): `pipe_stream` delivers to the writer, in order and with no
duplication or invention, an initial segment of the byte sequence read; and
whenever every single write accepts the whole buffered content, the
receiving peer gets exactly the finite byte sequence sent, and the copy
ends with a clean shutdown.  The original clause that a short write is
retried/completed before the next read fails on the code (see
`pipe_stream_short_write_loss`): `write_buf` issues one write per
iteration, and bytes it leaves behind are only carried to the next write. -/
theorem pipe_stream_byte_fidelity :
    (∀ (reads : List ReadEv) (ws : List WriteEv) (sres : Outcome) (out : PipeOut),
        pipe_stream reads ws sres = some out →
        ∃ t, out.written ++ t = dataBytes reads) ∧
    (∀ (chunks : List (List Nat)) (sres : Outcome),
        pipe_stream (chunks.map ReadEv.data ++ [ReadEv.eof])
          (chunks.map fun c => WriteEv.accept c.length) sres =
        some ⟨chunks.flatten, [], true, sres⟩) := by
  constructor
  · intro reads ws sres out h
    have hi := pipeStreamLoop_written_initial reads ws sres [] out h
    simpa using hi
  · intro chunks sres
    exact pipeStreamLoop_full_writes chunks sres

/-- Witness for C1's theorem at concrete inputs. -/
theorem pipe_stream_byte_fidelity_witness :
    (∃ t, ([3] : List Nat) ++ t = dataBytes [ReadEv.data [3, 4], ReadEv.eof]) ∧
    pipe_stream [ReadEv.data [7, 8], ReadEv.eof] [WriteEv.accept 2] Outcome.ok =
      some ⟨[7, 8], [], true, Outcome.ok⟩ := by
  constructor
  · exact pipe_stream_byte_fidelity.1 [ReadEv.data [3, 4], ReadEv.eof]
      [WriteEv.accept 1] Outcome.ok ⟨[3], [4], true, Outcome.ok⟩ (by decide)
  · exact pipe_stream_byte_fidelity.2 [[7, 8]] Outcome.ok

/-- Counterexample to C1 as stated: the reader delivers bytes [1, 2], the
single `write_buf` accepts only one byte, then the reader reaches end of
stream.  The next read is issued while byte 2 is still unwritten (the short
write is not retried), the copy then shuts the writer down, discards byte 2
and reports success: the receiving peer got [1], not the sent sequence
[1, 2]. -/
theorem pipe_stream_short_write_loss :
    pipe_stream [ReadEv.data [1, 2], ReadEv.eof] [WriteEv.accept 1] Outcome.ok =
      some ⟨[1], [2], true, Outcome.ok⟩ ∧
    ([1] : List Nat) ≠ dataBytes [ReadEv.data [1, 2], ReadEv.eof] := by
  decide

/-- Helper: on reads delivering `chunks` followed by a clean end of stream,
with at least one write event per chunk, the loop terminates with the
writer shut down, returns the shutdown result, and every read byte is
either written or left (discarded) in the buffer, in order. -/
theorem pipeStreamLoop_eof_shutdown :
    ∀ (chunks : List (List Nat)) (accepts : List Nat) (rest : List ReadEv)
      (sres : Outcome) (buf : List Nat),
      chunks.length ≤ accepts.length →
      ∃ out,
        pipeStreamLoop (chunks.map ReadEv.data ++ ReadEv.eof :: rest)
          (accepts.map WriteEv.accept) sres buf = some out ∧
        out.shutdownCalled = true ∧ out.res = sres ∧
        out.written ++ out.leftover = buf ++ chunks.flatten := by
  intro chunks
  induction chunks with
  | nil =>
      intro accepts rest sres buf _
      exact ⟨⟨[], buf, true, sres⟩, by simp [pipeStreamLoop], rfl, rfl, by simp⟩
  | cons c cs ih =>
      intro accepts rest sres buf hlen
      cases accepts with
      | nil => simp at hlen
      | cons a as =>
          obtain ⟨r, hr, hsd, hres, hcons⟩ :=
            ih as rest sres ((buf ++ c).drop (min a (buf ++ c).length))
              (by simp only [List.length_cons] at hlen; exact Nat.le_of_succ_le_succ hlen)
          refine ⟨⟨(buf ++ c).take (min a (buf ++ c).length) ++ r.written,
            r.leftover, r.shutdownCalled, r.res⟩, ?_, hsd, hres, ?_⟩
          · simp only [List.map_cons, List.cons_append, pipeStreamLoop, List.append_eq]
            rw [hr]
          · show ((buf ++ c).take (min a (buf ++ c).length) ++ r.written) ++ r.leftover =
              buf ++ (c :: cs).flatten
            rw [List.append_assoc, hcons, ← List.append_assoc, List.take_append_drop]
            simp

/-- C3 (amended): on a zero-byte read the copy shuts the writer down and
returns the result of the shutdown (a non-error outcome whenever the
shutdown itself succeeds), so the peer observes end of stream after having
received all previously WRITTEN bytes, in order; bytes read but still
pending in the buffer after a short write are discarded, not delivered
(see `pipe_stream_eof_discards_pending`). -/
theorem pipe_stream_eof_halfclose :
    ∀ (chunks : List (List Nat)) (accepts : List Nat) (rest : List ReadEv)
      (sres : Outcome),
      chunks.length ≤ accepts.length →
      ∃ out,
        pipe_stream (chunks.map ReadEv.data ++ ReadEv.eof :: rest)
          (accepts.map WriteEv.accept) sres = some out ∧
        out.shutdownCalled = true ∧ out.res = sres ∧
        out.written ++ out.leftover = chunks.flatten := by
  intro chunks accepts rest sres hlen
  obtain ⟨out, h1, h2, h3, h4⟩ :=
    pipeStreamLoop_eof_shutdown chunks accepts rest sres [] hlen
  exact ⟨out, h1, h2, h3, by simpa using h4⟩

/-- Witness for C3's theorem at a concrete input. -/
theorem pipe_stream_eof_halfclose_witness :
    ∃ out,
      pipe_stream [ReadEv.data [9], ReadEv.eof] [WriteEv.accept 1] Outcome.ok =
        some out ∧
      out.shutdownCalled = true ∧ out.res = Outcome.ok ∧
      out.written ++ out.leftover = [9] := by
  have h := pipe_stream_eof_halfclose [[9]] [1] [] Outcome.ok (by decide)
  simpa using h

/-- Counterexample to C3 as stated: the reader delivers [5, 6], the single
write accepts one byte, then end of stream.  The writer is shut down and
the copy returns success, but the peer on the writer's leg received only
[5] — not all previously read bytes [5, 6]; byte 6 was discarded with the
buffer. -/
theorem pipe_stream_eof_discards_pending :
    pipe_stream [ReadEv.data [5, 6], ReadEv.eof] [WriteEv.accept 1] Outcome.ok =
      some ⟨[5], [6], true, Outcome.ok⟩ ∧
    ([5] : List Nat) ≠ dataBytes [ReadEv.data [5, 6], ReadEv.eof] := by
  decide

/-- C8 (amended): the 4 KiB staging bound holds only under full writes:
when every write accepts the whole buffered content, the bytes staged
after each read are exactly that read's chunk, so if every single read
returns at most 4096 bytes (the spare capacity of the drained 4 KiB
buffer) the staged bytes never exceed 4096 and the buffer never grows.
When a write is short the bound fails and `BytesMut` is resized beyond its
initial capacity (see `pipe_buf_exceeds_4096`). -/
theorem pipe_buf_bounded_under_full_writes :
    ∀ (chunks : List (List Nat)),
      pipeBufLens (chunks.map ReadEv.data ++ [ReadEv.eof])
        (chunks.map fun c => WriteEv.accept c.length) [] = chunks.map List.length ∧
      ((∀ c ∈ chunks, c.length ≤ 4096) →
        ∀ m ∈ pipeBufLens (chunks.map ReadEv.data ++ [ReadEv.eof])
            (chunks.map fun c => WriteEv.accept c.length) [], m ≤ 4096) := by
  have htrace : ∀ (cs : List (List Nat)),
      pipeBufLens (cs.map ReadEv.data ++ [ReadEv.eof])
        (cs.map fun c => WriteEv.accept c.length) [] = cs.map List.length := by
    intro cs
    induction cs with
    | nil => rfl
    | cons c cs ih =>
        simp only [List.map_cons, List.cons_append, pipeBufLens, List.nil_append,
          Nat.min_self, List.drop_length, List.append_eq]
        rw [ih]
  intro chunks
  refine ⟨htrace chunks, ?_⟩
  intro hb m hm
  rw [htrace chunks] at hm
  obtain ⟨c, hc, rfl⟩ := List.mem_map.mp hm
  exact hb c hc

/-- Witness for C8's theorem at a concrete input. -/
theorem pipe_buf_bounded_under_full_writes_witness :
    pipeBufLens [ReadEv.data [2, 3], ReadEv.eof] [WriteEv.accept 2] [] = [2] ∧
    (∀ m ∈ pipeBufLens [ReadEv.data [2, 3], ReadEv.eof] [WriteEv.accept 2] [],
      m ≤ 4096) := by
  have h := pipe_buf_bounded_under_full_writes [[2, 3]]
  exact ⟨h.1, fun m hm => h.2 (by decide) m hm⟩

/-- Counterexample to C8 as stated: a first read fills the buffer with 4096
bytes, the single write accepts only one of them, and the next `read_buf`
grows the buffer (`BytesMut` reserves room for at least 64 further bytes
when full) and appends 64 more: 4159 bytes are staged — more than the
fixed 4 KiB bound, and the buffer had to be resized beyond its initial
capacity to hold them. -/
theorem pipe_buf_exceeds_4096 :
    pipeBufLens
      [ReadEv.data (List.replicate 4096 0), ReadEv.data (List.replicate 64 0),
        ReadEv.eof]
      [WriteEv.accept 1, WriteEv.accept 0] [] = [4096, 4159] ∧ 4096 < 4159 := by
  refine ⟨?_, by norm_num⟩
  simp only [pipeBufLens, List.nil_append, List.length_replicate, List.drop_replicate,
    List.length_append]
  norm_num [Nat.min_def]

/-- Helper: `try_join!` succeeds exactly when both branches have completed
successfully. -/
theorem try_join2_ok_iff :
    ∀ (t1 t2 : Nat) (r1 r2 : Option Outcome),
      try_join2 t1 t2 r1 r2 = some Outcome.ok ↔
        r1 = some Outcome.ok ∧ r2 = some Outcome.ok := by
  intro t1 t2 r1 r2
  rcases r1 with _ | (_ | e1) <;> rcases r2 with _ | (_ | e2) <;>
    simp [try_join2] <;> by_cases hl : t1 ≤ t2 <;> simp [hl]

/-- Helper: a branch-1 error wins if it completed no later than a branch-2
error, or if branch 2 never errors. -/
theorem try_join2_err_left :
    ∀ (t1 t2 : Nat) (r2 : Option Outcome) (e1 : ErrCode),
      (t1 ≤ t2 ∨ ∀ e2, r2 ≠ some (Outcome.err e2)) →
      try_join2 t1 t2 (some (Outcome.err e1)) r2 = some (Outcome.err e1) := by
  intro t1 t2 r2 e1 h
  rcases r2 with _ | o2
  · simp [try_join2]
  · rcases o2 with _ | e2
    · simp [try_join2]
    · rcases h with h | h
      · simp [try_join2, h]
      · exact absurd rfl (h e2)

/-- Helper: a branch-2 error wins if it completed strictly earlier than a
branch-1 error, or if branch 1 never errors. -/
theorem try_join2_err_right :
    ∀ (t1 t2 : Nat) (r1 : Option Outcome) (e2 : ErrCode),
      (t2 < t1 ∨ ∀ e1, r1 ≠ some (Outcome.err e1)) →
      try_join2 t1 t2 r1 (some (Outcome.err e2)) = some (Outcome.err e2) := by
  intro t1 t2 r1 e2 h
  rcases r1 with _ | o1
  · simp [try_join2]
  · rcases o1 with _ | e1
    · simp [try_join2]
    · rcases h with h | h
      · have hnl : ¬ t1 ≤ t2 := Nat.not_le.mpr h
        simp [try_join2, hnl]
      · exact absurd rfl (h e1)

/-- Helper: any error reported by `try_join!` was produced by one of the
two branches. -/
theorem try_join2_err_source :
    ∀ (t1 t2 : Nat) (r1 r2 : Option Outcome) (e : ErrCode),
      try_join2 t1 t2 r1 r2 = some (Outcome.err e) →
      r1 = some (Outcome.err e) ∨ r2 = some (Outcome.err e) := by
  intro t1 t2 r1 r2 e h
  rcases r1 with _ | o1
  · rcases r2 with _ | o2
    · simp [try_join2] at h
    · rcases o2 with _ | e2
      · simp [try_join2] at h
      · simp only [try_join2, Option.some.injEq] at h
        right; rw [h]
  · rcases o1 with _ | e1
    · rcases r2 with _ | o2
      · simp [try_join2] at h
      · rcases o2 with _ | e2
        · simp [try_join2] at h
        · simp only [try_join2, Option.some.injEq] at h
          right; rw [h]
    · rcases r2 with _ | o2
      · simp only [try_join2, Option.some.injEq] at h
        left; rw [h]
      · rcases o2 with _ | e2
        · simp only [try_join2, Option.some.injEq] at h
          left; rw [h]
        · by_cases hl : t1 ≤ t2
          · simp only [try_join2, hl, if_true, Option.some.injEq] at h
            left; rw [h]
          · simp only [try_join2, hl, if_false, Option.some.injEq] at h
            right; rw [h]

/-- C2: with the upstream dial successful, `process_stream` runs both copy
directions under `try_join!`: the session result is success exactly when
both copy operations have completed successfully; if either direction
fails, the session's result is that failure, the first observed error
winning (earlier completion time; direction 1 on a tie, as it is polled
first) while the other direction either finishes or is torn down; and any
reported error is one actually produced by a copy direction. -/
theorem process_stream_joins_directions :
    ∀ (env : ConnEnv), env.dial = Outcome.ok →
      (process_stream env).relayStarted = true ∧
      ((process_stream env).res = some Outcome.ok ↔
        (pipe_stream env.reads1 env.writes1 env.sdres1).map PipeOut.res =
            some Outcome.ok ∧
        (pipe_stream env.reads2 env.writes2 env.sdres2).map PipeOut.res =
            some Outcome.ok) ∧
      (∀ e1,
        (pipe_stream env.reads1 env.writes1 env.sdres1).map PipeOut.res =
            some (Outcome.err e1) →
        (env.t1 ≤ env.t2 ∨
          ∀ e2, (pipe_stream env.reads2 env.writes2 env.sdres2).map PipeOut.res ≠
            some (Outcome.err e2)) →
        (process_stream env).res = some (Outcome.err e1)) ∧
      (∀ e2,
        (pipe_stream env.reads2 env.writes2 env.sdres2).map PipeOut.res =
            some (Outcome.err e2) →
        (env.t2 < env.t1 ∨
          ∀ e1, (pipe_stream env.reads1 env.writes1 env.sdres1).map PipeOut.res ≠
            some (Outcome.err e1)) →
        (process_stream env).res = some (Outcome.err e2)) ∧
      (∀ e, (process_stream env).res = some (Outcome.err e) →
        (pipe_stream env.reads1 env.writes1 env.sdres1).map PipeOut.res =
            some (Outcome.err e) ∨
        (pipe_stream env.reads2 env.writes2 env.sdres2).map PipeOut.res =
            some (Outcome.err e)) := by
  intro env hd
  have hps : process_stream env =
      ⟨true, try_join2 env.t1 env.t2
        ((pipe_stream env.reads1 env.writes1 env.sdres1).map PipeOut.res)
        ((pipe_stream env.reads2 env.writes2 env.sdres2).map PipeOut.res)⟩ := by
    unfold process_stream
    rw [hd]
  refine ⟨by rw [hps], ?_, ?_, ?_, ?_⟩
  · rw [hps]
    exact try_join2_ok_iff env.t1 env.t2 _ _
  · intro e1 h1 hcond
    rw [hps]
    show try_join2 env.t1 env.t2 _ _ = _
    rw [h1]
    exact try_join2_err_left env.t1 env.t2 _ e1 hcond
  · intro e2 h2 hcond
    rw [hps]
    show try_join2 env.t1 env.t2 _ _ = _
    rw [h2]
    exact try_join2_err_right env.t1 env.t2 _ e2 hcond
  · intro e he
    rw [hps] at he
    exact try_join2_err_source env.t1 env.t2 _ _ e he

/-- A concrete session environment whose client→upstream direction fails
with read error 9 while the upstream→client direction ends cleanly. -/
def envPipeErr : ConnEnv :=
  ⟨Outcome.ok, Outcome.ok, [ReadEv.rderr 9], [], Outcome.ok,
    [ReadEv.eof], [], Outcome.ok, 0, 0⟩

/-- Witness for C2's theorem at a concrete input. -/
theorem process_stream_joins_directions_witness :
    (process_stream envPipeErr).res = some (Outcome.err 9) ∧
    (process_stream envPipeErr).relayStarted = true := by
  have h := process_stream_joins_directions envPipeErr rfl
  exact ⟨h.2.2.1 9 (by decide) (Or.inl (by decide)), h.1⟩

/-- C4 (amended): every error returned by `listener.accept()` — whether or
not it is per-connection — propagates out of the loop through `?` and
terminates the acceptor with that failure; no accept error is logged and
dropped, and no later connection is accepted after any accept error. -/
theorem accept_error_stops_loop :
    ∀ (envs : List ConnEnv) (e : ErrCode) (post : List AcceptEv),
      acceptLoop (envs.map AcceptEv.conn ++ AcceptEv.aerr e :: post) =
        ⟨envs, some e⟩ ∧
      listen_for_http_request Outcome.ok
          (envs.map AcceptEv.conn ++ AcceptEv.aerr e :: post) =
        ⟨envs, some e⟩ := by
  have hloop : ∀ (envs : List ConnEnv) (e : ErrCode) (post : List AcceptEv),
      acceptLoop (envs.map AcceptEv.conn ++ AcceptEv.aerr e :: post) =
        ⟨envs, some e⟩ := by
    intro envs e post
    induction envs with
    | nil => rfl
    | cons env rest ih =>
        simp only [List.map_cons, List.cons_append, acceptLoop, List.append_eq, ih]
  intro envs e post
  exact ⟨hloop envs e post, hloop envs e post⟩

/-- A session environment with every field trivial, used for concrete
acceptor schedules. -/
def env0 : ConnEnv :=
  ⟨Outcome.ok, Outcome.ok, [], [], Outcome.ok, [], [], Outcome.ok, 0, 0⟩

/-- Counterexample to C4 as stated: `aerr 11` stands for a per-connection
accept error (for instance a connection aborted before the accept
completed).  The claim says the loop logs/drops it and keeps accepting, so
the following connection `env0` should be served; the code instead
terminates the acceptor with error 11 and `env0` is never accepted. -/
theorem accept_error_not_tolerated :
    listen_for_http_request Outcome.ok [AcceptEv.aerr 11, AcceptEv.conn env0] =
      ⟨[], some 11⟩ ∧
    (⟨[], some 11⟩ : ListenOut).spawned ≠ [env0] := by
  constructor
  · rfl
  · intro h
    cases h

/-- C6: an upstream dial failure is isolated to the offending client
connection: the spawned session task returns the dial error without
starting any relay (the streams are dropped, closing the client
connection), and the acceptor loop's behaviour on every later event is
unchanged — it keeps accepting and serving subsequent connections. -/
theorem dial_failure_isolated :
    ∀ (env : ConnEnv) (e : ErrCode) (rest : List AcceptEv),
      env.dial = Outcome.err e →
      process_stream env = ⟨false, some (Outcome.err e)⟩ ∧
      listen_for_http_request Outcome.ok (AcceptEv.conn env :: rest) =
        ⟨env :: (acceptLoop rest).spawned, (acceptLoop rest).err⟩ := by
  intro env e rest hd
  constructor
  · unfold process_stream
    rw [hd]
  · rfl

/-- Witness for C6's theorem at a concrete input: a connection whose dial
fails with error 7, followed by a further connection `env0` that is still
accepted. -/
theorem dial_failure_isolated_witness :
    process_stream
        ⟨Outcome.ok, Outcome.err 7, [], [], Outcome.ok, [], [], Outcome.ok, 0, 0⟩ =
      ⟨false, some (Outcome.err 7)⟩ ∧
    listen_for_http_request Outcome.ok
        (AcceptEv.conn
          ⟨Outcome.ok, Outcome.err 7, [], [], Outcome.ok, [], [], Outcome.ok, 0, 0⟩ ::
          [AcceptEv.conn env0]) =
      ⟨⟨Outcome.ok, Outcome.err 7, [], [], Outcome.ok, [], [], Outcome.ok, 0, 0⟩ ::
        (acceptLoop [AcceptEv.conn env0]).spawned, (acceptLoop [AcceptEv.conn env0]).err⟩ := by
  exact dial_failure_isolated
    ⟨Outcome.ok, Outcome.err 7, [], [], Outcome.ok, [], [], Outcome.ok, 0, 0⟩ 7
    [AcceptEv.conn env0] rfl

/-- C5: whenever the certificate chain is empty, the private key is
malformed, or the key does not match the leaf certificate, building the
TLS configuration fails and `listen_for_https_request` surfaces that error
before any connection is accepted: the acceptor outcome spawned no session
and carries a startup error.  (The failure condition itself is the
spec-modelled contract of the external `set_single_cert`.) -/
theorem tls_construction_failure_fatal :
    ∀ (cs : List Certificate) (k : PrivateKey) (ks : List PrivateKey)
      (bindRes : Outcome) (evs : List AcceptEv),
      (cs.isEmpty = true ∨ k.wellFormed = false ∨
        cs.head?.map Certificate.keyId ≠ some k.keyId) →
      ∃ e, listen_for_https_request (some cs) (some (k :: ks)) bindRes evs =
        some ⟨[], some e⟩ := by
  intro cs k ks bindRes evs h
  have hset : ∃ e, set_single_cert cs k = Outcome.err e := by
    rcases h with h | h | h
    · exact ⟨101, by simp [set_single_cert, h]⟩
    · by_cases h1 : cs.isEmpty
      · exact ⟨101, by simp [set_single_cert, h1]⟩
      · exact ⟨102, by simp [set_single_cert, h1, h]⟩
    · by_cases h1 : cs.isEmpty
      · exact ⟨101, by simp [set_single_cert, h1]⟩
      · by_cases h2 : k.wellFormed
        · exact ⟨103, by simp [set_single_cert, h1, h2, h]⟩
        · exact ⟨102, by simp [set_single_cert, h1, h2]⟩
  obtain ⟨e, he⟩ := hset
  refine ⟨e, ?_⟩
  simp only [listen_for_https_request, load_certs, load_keys]
  rw [he]

/-- Witness for C5's theorem at a concrete input: an empty certificate
chain. -/
theorem tls_construction_failure_fatal_witness :
    ∃ e, listen_for_https_request (some []) (some [⟨true, 0⟩]) Outcome.ok [] =
      some ⟨[], some e⟩ := by
  exact tls_construction_failure_fatal [] ⟨true, 0⟩ [] Outcome.ok [] (Or.inl rfl)

/-- C7: a TLS handshake failure aborts only that connection: the spawned
session task ends with the handshake error having started no relay (and no
upstream dial), the outcome of every other accepted connection — including
one handshaking concurrently on the same port — is exactly what it would
be without this connection, and the secure acceptor loop keeps accepting. -/
theorem handshake_failure_isolated :
    ∀ (env : ConnEnv) (e : ErrCode) (rest : List AcceptEv),
      env.handshake = Outcome.err e →
      process_https_stream env = ⟨false, some (Outcome.err e)⟩ ∧
      httpsSessionOutcomes (AcceptEv.conn env :: rest) =
        process_https_stream env :: httpsSessionOutcomes rest ∧
      (acceptLoop (AcceptEv.conn env :: rest)).err = (acceptLoop rest).err := by
  intro env e rest hh
  refine ⟨?_, rfl, rfl⟩
  unfold process_https_stream
  rw [hh]

/-- A session environment whose TLS handshake fails with error 13. -/
def envHsErr : ConnEnv :=
  ⟨Outcome.err 13, Outcome.ok, [], [], Outcome.ok, [], [], Outcome.ok, 0, 0⟩

/-- Witness for C7's theorem at a concrete input: the failed handshake is
followed by a second, well-formed connection that is accepted and served
unchanged. -/
theorem handshake_failure_isolated_witness :
    process_https_stream envHsErr = ⟨false, some (Outcome.err 13)⟩ ∧
    httpsSessionOutcomes (AcceptEv.conn envHsErr :: [AcceptEv.conn env0]) =
      process_https_stream envHsErr :: httpsSessionOutcomes [AcceptEv.conn env0] ∧
    (acceptLoop (AcceptEv.conn envHsErr :: [AcceptEv.conn env0])).err =
      (acceptLoop [AcceptEv.conn env0]).err := by
  exact handshake_failure_isolated envHsErr 13 [AcceptEv.conn env0] rfl

/-- Helper: if either branch produces an error, `try_join!` reports an
error (the first observed one). -/
theorem try_join2_err_any :
    ∀ (t1 t2 : Nat) (r1 r2 : Option Outcome) (e : ErrCode),
      (r1 = some (Outcome.err e) ∨ r2 = some (Outcome.err e)) →
      ∃ f, try_join2 t1 t2 r1 r2 = some (Outcome.err f) := by
  intro t1 t2 r1 r2 e h
  rcases h with h | h
  · subst h
    rcases r2 with _ | (_ | e2)
    · exact ⟨e, rfl⟩
    · exact ⟨e, rfl⟩
    · by_cases hl : t1 ≤ t2
      · exact ⟨e, by simp [try_join2, hl]⟩
      · exact ⟨e2, by simp [try_join2, hl]⟩
  · subst h
    rcases r1 with _ | (_ | e1)
    · exact ⟨e, rfl⟩
    · exact ⟨e, rfl⟩
    · by_cases hl : t1 ≤ t2
      · exact ⟨e1, by simp [try_join2, hl]⟩
      · exact ⟨e, by simp [try_join2, hl]⟩

/-- Helper: an acceptor loop never contributes a success to the top-level
`try_join!` — it either errors or keeps running. -/
theorem listenResult_not_ok :
    ∀ (lo : ListenOut), listenResult lo ≠ some Outcome.ok := by
  intro lo h
  unfold listenResult at h
  cases hlo : lo.err with
  | none => rw [hlo] at h; exact absurd h (by simp)
  | some e => rw [hlo] at h; simp at h

/-- C9: the process supervisor joins both acceptors: provided the secure
acceptor starts without panicking, if exactly one acceptor loop terminates
with an error then `main` returns EXACTLY that acceptor's error; if both
error, `main` returns the first observed one (the earlier completion time,
the plain acceptor on a tie, as it is listed first in `try_join!`); and
the process never reports overall success. -/
theorem main_joins_acceptors :
    ∀ (bindH : Outcome) (evsH : List AcceptEv)
      (certsParsed : Option (List Certificate))
      (keysParsed : Option (List PrivateKey)) (bindS : Outcome)
      (evsS : List AcceptEv) (tH tS : Nat) (lo : ListenOut),
      listen_for_https_request certsParsed keysParsed bindS evsS = some lo →
      (∀ e, (listen_for_http_request bindH evsH).err = some e → lo.err = none →
        main_rs bindH evsH certsParsed keysParsed bindS evsS tH tS =
          some (some (Outcome.err e))) ∧
      (∀ e, lo.err = some e → (listen_for_http_request bindH evsH).err = none →
        main_rs bindH evsH certsParsed keysParsed bindS evsS tH tS =
          some (some (Outcome.err e))) ∧
      (∀ eH eS, (listen_for_http_request bindH evsH).err = some eH →
        lo.err = some eS →
        main_rs bindH evsH certsParsed keysParsed bindS evsS tH tS =
          some (some (if tH ≤ tS then Outcome.err eH else Outcome.err eS))) ∧
      main_rs bindH evsH certsParsed keysParsed bindS evsS tH tS ≠
        some (some Outcome.ok) := by
  intro bindH evsH cp kp bindS evsS tH tS lo hlo
  have hm : main_rs bindH evsH cp kp bindS evsS tH tS =
      some (try_join2 tH tS (listenResult (listen_for_http_request bindH evsH))
        (listenResult lo)) := by
    unfold main_rs
    rw [hlo]
  refine ⟨?_, ?_, ?_, ?_⟩
  · intro e he hn
    have h1 : listenResult (listen_for_http_request bindH evsH) =
        some (Outcome.err e) := by
      unfold listenResult
      rw [he]
    have h2 : listenResult lo = none := by
      unfold listenResult
      rw [hn]
    rw [hm, h1, h2]
    rfl
  · intro e he hn
    have h1 : listenResult (listen_for_http_request bindH evsH) = none := by
      unfold listenResult
      rw [hn]
    have h2 : listenResult lo = some (Outcome.err e) := by
      unfold listenResult
      rw [he]
    rw [hm, h1, h2]
    rfl
  · intro eH eS heH heS
    have h1 : listenResult (listen_for_http_request bindH evsH) =
        some (Outcome.err eH) := by
      unfold listenResult
      rw [heH]
    have h2 : listenResult lo = some (Outcome.err eS) := by
      unfold listenResult
      rw [heS]
    rw [hm, h1, h2]
    rfl
  · intro h
    rw [hm] at h
    have hj : try_join2 tH tS (listenResult (listen_for_http_request bindH evsH))
        (listenResult lo) = some Outcome.ok := by
      exact Option.some.inj h
    have hboth := (try_join2_ok_iff tH tS _ _).mp hj
    exact listenResult_not_ok _ hboth.1

/-- A certificate for key pair 0, for concrete startup schedules. -/
def cert0 : Certificate := ⟨0⟩

/-- A well-formed private key of key pair 0, matching `cert0`. -/
def key0 : PrivateKey := ⟨true, 0⟩

/-- Witness for C9's theorem at a concrete input: the plain acceptor's bind
fails with error 5 while the secure acceptor starts normally and keeps
running; `main` returns exactly error 5. -/
theorem main_joins_acceptors_witness :
    main_rs (Outcome.err 5) [] (some [cert0]) (some [key0]) Outcome.ok [] 0 0 =
      some (some (Outcome.err 5)) ∧
    main_rs (Outcome.err 5) [] (some [cert0]) (some [key0]) Outcome.ok [] 0 0 ≠
      some (some Outcome.ok) := by
  have h := main_joins_acceptors (Outcome.err 5) [] (some [cert0]) (some [key0])
    Outcome.ok [] 0 0 ⟨[], none⟩ (by decide)
  exact ⟨h.1 5 (by decide) rfl, h.2.2.2⟩

/-- C10: `load_keys` maps a successfully parsed but empty key list (for
example a PEM file holding only non-RSA keys, since only RSA private keys
are parsed) to `Ok` of an empty vector, and `listen_for_https_request`
then panics at `keys.remove(0)` (modelled by `none`) instead of returning
an error; with any key parse outcome other than a successful empty list the
startup is total and error-returning (a `some` result). -/
theorem empty_key_list_panics :
    ∀ (cs : List Certificate) (bindRes : Outcome) (evs : List AcceptEv),
      load_keys (some []) = Loaded.ok ([] : List PrivateKey) ∧
      listen_for_https_request (some cs) (some []) bindRes evs = none ∧
      (∀ (certsParsed : Option (List Certificate))
        (keysParsed : Option (List PrivateKey)),
        keysParsed ≠ some [] →
        listen_for_https_request certsParsed keysParsed bindRes evs ≠ none) := by
  intro cs bindRes evs
  refine ⟨rfl, rfl, ?_⟩
  intro cp kp hne
  rcases cp with _ | cs'
  · simp [listen_for_https_request, load_certs]
  · rcases kp with _ | ks
    · simp [listen_for_https_request, load_certs, load_keys]
    · rcases ks with _ | ⟨k, ks'⟩
      · exact absurd rfl hne
      · simp only [listen_for_https_request, load_certs, load_keys]
        cases hsc : set_single_cert cs' k with
        | err e => simp
        | ok =>
            cases bindRes with
            | err e => simp
            | ok => simp

/-- Witness for C10's theorem at concrete inputs. -/
theorem empty_key_list_panics_witness :
    load_keys (some []) = Loaded.ok ([] : List PrivateKey) ∧
    listen_for_https_request (some [cert0]) (some []) Outcome.ok [] = none ∧
    listen_for_https_request (some [cert0]) (some [key0]) Outcome.ok [] ≠ none := by
  have h := empty_key_list_panics [cert0] Outcome.ok []
  exact ⟨h.1, h.2.1, h.2.2 (some [cert0]) (some [key0]) (by decide)⟩
